import Mathlib

/-!
Verification of the workflow-component execution engine of openff-qcsubmit:
the component contract (`_apply` / `apply` lifecycle), the dispatcher's
parallel/sequential mode selection, and the result-accumulation model that
tracks passed versus filtered molecules.

The concrete components embedded here are the state-enumeration components
(`EnumerateTautomers`, `EnumerateStereoisomers`, `EnumerateProtomers`) from
`openff/qcsubmit/workflow_components/state_enumeration.py`, together with the
base-component machinery from
`openff/qcsubmit/workflow_components/base_component.py`
(`CustomWorkflowComponent.apply`, `CustomWorkflowComponent._create_result`,
`ToolkitValidator._check_toolkit`, `ToolkitValidator.is_available`).

Chemistry operations (tautomer/stereoisomer/protomer enumeration, conformer
generation, the stereo-completeness check) are owned by an external molecule
toolkit; they are modelled as opaque function parameters collected in a
`Toolkit` record.  A call that may raise is modelled as returning
`Except String _`, the `String` being the exception text.
-/

namespace QCSubmit

/-- Modelled from the spec: a `Molecule` is an external entity, opaque to the
core, carrying a derivable canonical identity and zero or more conformers; the
core never inspects it beyond its identity key and merging conformers. -/
structure Molecule where
  ident : Nat
  conformers : List Nat := []
deriving DecidableEq

/-- The runtime properties of a component (`ComponentProperties` from
`openff.qcsubmit.common_structures`, declared by each component's
`properties()` classmethod). -/
structure ComponentProperties where
  process_parallel : Bool
  produces_duplicates : Bool
deriving DecidableEq

/-- Modelled from the spec: the `ComponentResult` container
(`openff.qcsubmit.datasets.ComponentResult` is absent from the sources; only
its callers are present).  It is owned by one execution of one component and
holds the component's configuration snapshot, the `passed` mapping from
canonical molecule identity to molecule record, and the `filtered` mapping
from canonical identity to the molecule together with the component's
human-readable failure reason.  A molecule present in `filtered` must not
also appear in `passed`. -/
structure ComponentResult where
  component_name : String
  fail_reason : String
  skip_unique_check : Bool
  passed : List Molecule := []
  filtered : List (Molecule × String) := []
deriving DecidableEq

/-- The canonical identities of the passed molecules of a result. -/
def passedIdents (r : ComponentResult) : List Nat :=
  r.passed.map Molecule.ident

/-- The canonical identities of the filtered molecules of a result. -/
def filteredIdents (r : ComponentResult) : List Nat :=
  r.filtered.map (fun p => p.1.ident)

/-- Modelled from the spec: adding a molecule to the `passed` mapping has set
semantics on the canonical-identity key — an identical identity is added at
most once unless the component declares that it produces duplicates
(`skip_unique_check = false`), in which case a repeat is merged onto the
existing identity (its conformers joined) rather than rejected.  An identity
already recorded as filtered is not re-added as passed, preserving the
declared passed/filtered exclusivity of the container. -/
def ComponentResult.add_molecule (r : ComponentResult) (m : Molecule) :
    ComponentResult :=
  if m.ident ∈ filteredIdents r then r
  else if m.ident ∈ passedIdents r then
    if r.skip_unique_check then r
    else { r with passed := r.passed.map (fun p =>
            if p.ident = m.ident then
              { p with conformers := p.conformers ++ m.conformers }
            else p) }
  else { r with passed := r.passed ++ [m] }

/-- Modelled from the spec: filtering a molecule records it in the `filtered`
mapping under its canonical identity together with the component's declared
failure reason, removing any passed entry of the same identity so that no
identity appears in both collections. -/
def ComponentResult.filter_molecule (r : ComponentResult) (m : Molecule) :
    ComponentResult :=
  if m.ident ∈ filteredIdents r then r
  else { r with
    passed := r.passed.filter (fun p => p.ident ≠ m.ident),
    filtered := r.filtered ++ [(m, r.fail_reason)] }

/-- The external molecule toolkit: an opaque collaborator supplying the
chemistry operations invoked by the components.  Operations that may raise
return `Except String _` carrying the exception text. -/
structure Toolkit where
  enumerate_tautomers : Molecule → Nat → Except String (List Molecule)
  enumerate_stereoisomers :
    Molecule → Bool → Nat → Bool → Except String (List Molecule)
  enumerate_protomers : Molecule → Nat → Except String (List Molecule)
  generate_conformers : Molecule → Except String Molecule
  check_missing_stereo : Molecule → Bool

/-- `CustomWorkflowComponent._create_result`: builds the fresh result for an
`apply` call from the component's snapshot, with
`skip_unique_check = not properties().produces_duplicates`. -/
def create_result (name fail : String) (props : ComponentProperties) :
    ComponentResult :=
  { component_name := name
    fail_reason := fail
    skip_unique_check := !props.produces_duplicates }

/-- Configuration of the `EnumerateTautomers` component. -/
structure EnumerateTautomers where
  toolkit : String := "openeye"
  max_tautomers : Nat := 20
deriving DecidableEq

/-- `EnumerateTautomers.fail_reason`. -/
def EnumerateTautomers.fail_reason : String :=
  "The molecule tautomers could not be enumerated."

/-- `EnumerateTautomers.properties`. -/
def EnumerateTautomers.properties : ComponentProperties :=
  { process_parallel := true, produces_duplicates := true }

/-- The fresh result an `EnumerateTautomers` execution starts from. -/
def EnumerateTautomers.createResult (_c : EnumerateTautomers) :
    ComponentResult :=
  create_result "EnumerateTautomers" EnumerateTautomers.fail_reason
    EnumerateTautomers.properties

/-- One iteration of the loop body of `EnumerateTautomers._apply`: enumerate
the tautomers of the molecule, add each tautomer and then the input molecule
on success, and route the whole molecule to `filtered` on any exception. -/
def tautomerStep (tk : Toolkit) (c : EnumerateTautomers)
    (r : ComponentResult) (m : Molecule) : ComponentResult :=
  match tk.enumerate_tautomers m c.max_tautomers with
  | Except.ok tautomers =>
      (tautomers.foldl ComponentResult.add_molecule r).add_molecule m
  | Except.error _ => r.filter_molecule m

/-- `EnumerateTautomers._apply`: fold the loop body over the molecule list,
starting from a fresh result. -/
def EnumerateTautomers.applyC (c : EnumerateTautomers) (tk : Toolkit)
    (molecules : List Molecule) : ComponentResult :=
  molecules.foldl (tautomerStep tk c) c.createResult

/-- Configuration of the `EnumerateStereoisomers` component. -/
structure EnumerateStereoisomers where
  toolkit : String := "openeye"
  undefined_only : Bool := false
  max_isomers : Nat := 20
  rationalise : Bool := true
deriving DecidableEq

/-- `EnumerateStereoisomers.fail_reason`. -/
def EnumerateStereoisomers.fail_reason : String :=
  "The molecules stereo centers or bonds could not be enumerated."

/-- `EnumerateStereoisomers.properties`. -/
def EnumerateStereoisomers.properties : ComponentProperties :=
  { process_parallel := true, produces_duplicates := true }

/-- The fresh result an `EnumerateStereoisomers` execution starts from. -/
def EnumerateStereoisomers.createResult (_c : EnumerateStereoisomers) :
    ComponentResult :=
  create_result "EnumerateStereoisomers" EnumerateStereoisomers.fail_reason
    EnumerateStereoisomers.properties

/-- The isomer loop of `EnumerateStereoisomers._apply`: each isomer that
passes the `check_missing_stereo` round trip is added; the others are
silently dropped. -/
def stereoFoldIsomers (tk : Toolkit) (r : ComponentResult)
    (isomers : List Molecule) : ComponentResult :=
  isomers.foldl (fun acc isomer =>
    if !tk.check_missing_stereo isomer then acc.add_molecule isomer
    else acc) r

/-- The tail of the loop body of `EnumerateStereoisomers._apply`: after the
isomers have been handled, attempt conformer generation for the input
molecule when `rationalise` is set, then check and conditionally add the
input; a conformer-generation exception routes the input to `filtered`. -/
def stereoFinish (tk : Toolkit) (c : EnumerateStereoisomers)
    (r1 : ComponentResult) (m : Molecule) : ComponentResult :=
  match (if c.rationalise then tk.generate_conformers m
         else Except.ok m) with
  | Except.error _ => r1.filter_molecule m
  | Except.ok m2 =>
      if !tk.check_missing_stereo m2 then r1.add_molecule m2 else r1

/-- One iteration of the loop body of `EnumerateStereoisomers._apply`:
enumerate the stereoisomers, run the isomer loop, then handle the input
molecule; an enumeration exception routes the input molecule to
`filtered`. -/
def stereoisomerStep (tk : Toolkit) (c : EnumerateStereoisomers)
    (r : ComponentResult) (m : Molecule) : ComponentResult :=
  match tk.enumerate_stereoisomers m c.undefined_only c.max_isomers
      c.rationalise with
  | Except.error _ => r.filter_molecule m
  | Except.ok isomers => stereoFinish tk c (stereoFoldIsomers tk r isomers) m

/-- `EnumerateStereoisomers._apply`: fold the loop body over the molecule
list, starting from a fresh result. -/
def EnumerateStereoisomers.applyC (c : EnumerateStereoisomers)
    (tk : Toolkit) (molecules : List Molecule) : ComponentResult :=
  molecules.foldl (stereoisomerStep tk c) c.createResult

/-- Configuration of the `EnumerateProtomers` component (restricted to the
openeye toolkit provider). -/
structure EnumerateProtomers where
  toolkit : String := "openeye"
  max_states : Nat := 10
deriving DecidableEq

/-- `EnumerateProtomers.fail_reason`. -/
def EnumerateProtomers.fail_reason : String :=
  "The molecules formal charges could not be enumerated possibly due to a missing toolkit."

/-- `EnumerateProtomers.properties`. -/
def EnumerateProtomers.properties : ComponentProperties :=
  { process_parallel := true, produces_duplicates := true }

/-- The fresh result an `EnumerateProtomers` execution starts from. -/
def EnumerateProtomers.createResult (_c : EnumerateProtomers) :
    ComponentResult :=
  create_result "EnumerateProtomers" EnumerateProtomers.fail_reason
    EnumerateProtomers.properties

/-- One iteration of the success-branch loop body of
`EnumerateProtomers._apply`: enumerate the protomers, add each protomer and
then the input molecule, routing the molecule to `filtered` on any
exception. -/
def protomerStep (tk : Toolkit) (c : EnumerateProtomers)
    (r : ComponentResult) (m : Molecule) : ComponentResult :=
  match tk.enumerate_protomers m c.max_states with
  | Except.ok protomers =>
      (protomers.foldl ComponentResult.add_molecule r).add_molecule m
  | Except.error _ => r.filter_molecule m

/-- `EnumerateProtomers._apply`: `has_oe` is the truthiness of the cached
openeye toolkit handle; when it is set the per-molecule loop runs, otherwise
every input molecule of the batch is routed to `filtered`. -/
def EnumerateProtomers.applyC (c : EnumerateProtomers) (tk : Toolkit)
    (has_oe : Bool) (molecules : List Molecule) : ComponentResult :=
  if has_oe then
    molecules.foldl (protomerStep tk c) c.createResult
  else
    molecules.foldl ComponentResult.filter_molecule c.createResult

/-- The execution mode chosen by the dispatcher `CustomWorkflowComponent.apply`:
a pool of OS-level worker processes, or sequential execution in the calling
context. -/
inductive ExecMode where
  | pool
  | sequential
deriving DecidableEq

/-- The worker-count side of the dispatcher's condition:
`processors is None or processors > 1`. -/
def procCondition : Option Nat → Bool
  | none => true
  | some n => decide (1 < n)

/-- The dispatcher's execution-mode selection:
`if (processors is None or processors > 1) and properties().process_parallel`
use the process pool, otherwise run sequentially. -/
def selectMode (props : ComponentProperties) (processors : Option Nat) :
    ExecMode :=
  if procCondition processors && props.process_parallel then ExecMode.pool
  else ExecMode.sequential

/-- Merging one dispatch unit's result into the top-level result: every
passed molecule of the unit is added with `add_molecule`, every filtered
molecule with `filter_molecule`. -/
def mergeUnit (r : ComponentResult) (work : ComponentResult) :
    ComponentResult :=
  (work.filtered.map Prod.fst).foldl ComponentResult.filter_molecule
    (work.passed.foldl ComponentResult.add_molecule r)

/-- The pool branch of `CustomWorkflowComponent.apply`: build the work list
of single-molecule units `self._apply([molecule])`, then collect each unit's
result in issue order and merge it into the top-level result. -/
def poolApply (f : Molecule → ComponentResult) (init : ComponentResult)
    (molecules : List Molecule) : ComponentResult :=
  (molecules.map f).foldl mergeUnit init

/-- The sequential branch of `CustomWorkflowComponent.apply`: run
`self._apply([molecule])` for each molecule in order, merging each unit
result into the top-level result as it is produced. -/
def sequentialApply (f : Molecule → ComponentResult)
    (init : ComponentResult) (molecules : List Molecule) : ComponentResult :=
  molecules.foldl (fun r m => mergeUnit r (f m)) init

/-- `CustomWorkflowComponent.apply`: create the fresh result, select the
execution mode from the component properties and the requested worker count,
and run the corresponding branch over single-molecule dispatch units. -/
def applyDispatch (props : ComponentProperties) (name fail : String)
    (f : Molecule → ComponentResult) (processors : Option Nat)
    (molecules : List Molecule) : ComponentResult :=
  let result := create_result name fail props
  match selectMode props processors with
  | ExecMode.pool => poolApply f result molecules
  | ExecMode.sequential => sequentialApply f result molecules

/-- `EnumerateTautomers.apply`: the dispatcher driving the tautomer
component's `_apply` over single-molecule units. -/
def EnumerateTautomers.applyFull (c : EnumerateTautomers) (tk : Toolkit)
    (processors : Option Nat) (molecules : List Molecule) : ComponentResult :=
  applyDispatch EnumerateTautomers.properties "EnumerateTautomers"
    EnumerateTautomers.fail_reason (fun m => c.applyC tk [m]) processors
    molecules

/-- `EnumerateProtomers.apply`: the dispatcher driving the protomer
component's `_apply` over single-molecule units. -/
def EnumerateProtomers.applyFull (c : EnumerateProtomers) (tk : Toolkit)
    (has_oe : Bool) (processors : Option Nat) (molecules : List Molecule) :
    ComponentResult :=
  applyDispatch EnumerateProtomers.properties "EnumerateProtomers"
    EnumerateProtomers.fail_reason (fun m => c.applyC tk has_oe [m])
    processors molecules

/-- The keys of `ToolkitValidator._toolkits`: the closed set of backend
toolkit providers, in the declaration order of the registry. -/
def toolkitKeys : List String := ["rdkit", "openeye"]

/-- The `ValueError` message raised by `ToolkitValidator._check_toolkit` for
an unrecognized toolkit name: it names the rejected toolkit and lists the
registry's valid choices. -/
def invalidToolkitMsg (keys : List String) (toolkit : String) : String :=
  "The requested toolkit (" ++ toolkit ++
    (") is not support by the OFFTK. Please chose from " ++
      String.intercalate ", " keys ++ ".")

/-- `ToolkitValidator._check_toolkit`: the pydantic configuration validator
for the `toolkit` field; an unrecognized name raises a `ValueError` whose
message names the rejected toolkit and lists the valid choices, a recognized
name is returned unchanged. -/
def check_toolkit (keys : List String) (toolkit : String) :
    Except String String :=
  if toolkit ∈ keys then Except.ok toolkit
  else Except.error (invalidToolkitMsg keys toolkit)

/-- Constructing a validated `EnumerateTautomers` configuration: pydantic
runs `_check_toolkit` on the `toolkit` field before the component can be
applied to any molecule, so an invalid name never yields a component. -/
def EnumerateTautomers.mkValidated (toolkit : String) (max_tautomers : Nat) :
    Except String EnumerateTautomers :=
  match check_toolkit toolkitKeys toolkit with
  | Except.ok t => Except.ok { toolkit := t, max_tautomers := max_tautomers }
  | Except.error e => Except.error e

/-- The `raise_msg` install instructions passed to `which_import` for the
openeye provider. -/
def oeRaiseMsg : String :=
  "Please install via `conda install openeye-toolkits -c openeye`."

/-- The `raise_msg` install instructions passed to `which_import` for the
rdkit provider. -/
def rdkitRaiseMsg : String :=
  "Please install via `conda install rdkit -c conda-forge`."

/-- The `ModuleNotFoundError` message raised by
`ToolkitValidator.is_available` when no backend toolkit is available. -/
def bothMissingMsg : String :=
  "Openeye or RDKit is required to use this component please install via `conda install openeye-toolkits -c openeye` or `conda install rdkit -c conda-forge`."

/-- `qcelemental.util.which_import` as used by
`ToolkitValidator.is_available`: returns whether the module is importable,
raising `raise_msg` instead of returning `False` when `raise_error` is
set. -/
def which_import (available raise_error : Bool) (raise_msg : String) :
    Except String Bool :=
  if available then Except.ok true
  else if raise_error then Except.error raise_msg
  else Except.ok false

/-- The provider loop of `ToolkitValidator.is_available`: probe each
registered provider in order, returning `True` for the first available one,
propagating a `which_import` error, skipping unrecognized keys, and raising
the combined install-instructions error once every provider has been probed
without success.  `avail` is the ambient environment: which provider
packages are importable. -/
def availLoop (avail : String → Bool) (raise_error : Bool) :
    List String → Except String Bool
  | [] => Except.error bothMissingMsg
  | t :: rest =>
      if t = "openeye" then
        match which_import (avail "openeye") raise_error oeRaiseMsg with
        | Except.error e => Except.error e
        | Except.ok true => Except.ok true
        | Except.ok false => availLoop avail raise_error rest
      else if t = "rdkit" then
        match which_import (avail "rdkit") raise_error rdkitRaiseMsg with
        | Except.error e => Except.error e
        | Except.ok true => Except.ok true
        | Except.ok false => availLoop avail raise_error rest
      else availLoop avail raise_error rest

/-- `ToolkitValidator.is_available`: `raise_error` is set exactly when the
component's registry holds a single hard-required provider; the providers
are then probed by `availLoop`. -/
def is_available (toolkits : List String) (avail : String → Bool) :
    Except String Bool :=
  availLoop avail (decide (toolkits.length = 1)) toolkits

/-- An identity is accounted for by a result when it appears among the
passed identities or among the filtered identities. -/
def accounted (r : ComponentResult) (x : Nat) : Prop :=
  x ∈ passedIdents r ∨ x ∈ filteredIdents r

instance instDecidableAccounted (r : ComponentResult) (x : Nat) :
    Decidable (accounted r x) :=
  decidable_of_iff (x ∈ passedIdents r ∨ x ∈ filteredIdents r) Iff.rfl

/-- An identity appears in exactly one of the passed and filtered
collections of a result: never both and never neither. -/
def exactlyOne (r : ComponentResult) (x : Nat) : Prop :=
  (x ∈ passedIdents r ∧ x ∉ filteredIdents r) ∨
    (x ∉ passedIdents r ∧ x ∈ filteredIdents r)

instance instDecidableExactlyOne (r : ComponentResult) (x : Nat) :
    Decidable (exactlyOne r x) :=
  decidable_of_iff
    ((x ∈ passedIdents r ∧ x ∉ filteredIdents r) ∨
      (x ∉ passedIdents r ∧ x ∈ filteredIdents r)) Iff.rfl

/-- The passed/filtered exclusivity invariant of a result: no canonical
identity appears in both collections. -/
def disjointResult (r : ComponentResult) : Prop :=
  ∀ x, x ∈ passedIdents r → x ∉ filteredIdents r

/-- All filtered entries of a result carry the result's declared failure
reason. -/
def reasonsOk (r : ComponentResult) : Prop :=
  ∀ p ∈ r.filtered, p.2 = r.fail_reason

/-- Forgetting the text of a raised exception, keeping only whether the
toolkit call succeeded and, when it did, its value. -/
def scrubErr (e : Except String (List Molecule)) :
    Except Unit (List Molecule) :=
  match e with
  | Except.ok x => Except.ok x
  | Except.error _ => Except.error ()

/-- A molecule with a bare canonical identity and no conformers. -/
def mkMol (n : Nat) : Molecule := { ident := n }

/-- A toolkit environment in which every enumeration succeeds with no new
states and every molecule is fully stereo-defined. -/
def trivialTk : Toolkit :=
  { enumerate_tautomers := fun _ _ => Except.ok []
    enumerate_stereoisomers := fun _ _ _ _ => Except.ok []
    enumerate_protomers := fun _ _ => Except.ok []
    generate_conformers := fun m => Except.ok m
    check_missing_stereo := fun _ => false }

/-- A toolkit environment in which stereoisomer enumeration succeeds with no
isomers but every molecule still has missing stereochemistry. -/
def noStereoTk : Toolkit :=
  { trivialTk with check_missing_stereo := fun _ => true }

/-- A toolkit environment whose tautomer enumeration finds the three
tautomers 1, 2, 3 for every input. -/
def threeTautTk : Toolkit :=
  { trivialTk with
    enumerate_tautomers := fun _ _ =>
      Except.ok [mkMol 1, mkMol 2, mkMol 3] }

/-- A toolkit environment whose tautomer enumeration raises on every
input. -/
def failingTautTk : Toolkit :=
  { trivialTk with
    enumerate_tautomers := fun _ _ => Except.error "kekulization failed" }

/-- A toolkit environment whose tautomer enumeration raises exactly on the
molecule of identity 1. -/
def failOnOneTk : Toolkit :=
  { trivialTk with
    enumerate_tautomers := fun m _ =>
      if m.ident = 1 then Except.error "kekulization failed"
      else Except.ok [] }

/-- A toolkit environment whose stereoisomer enumeration finds the isomers
1 and 2 for every input, of which isomer 2 has missing stereochemistry. -/
def twoIsomerTk : Toolkit :=
  { trivialTk with
    enumerate_stereoisomers := fun _ _ _ _ => Except.ok [mkMol 1, mkMol 2]
    check_missing_stereo := fun m => decide (m.ident = 2) }

theorem add_filtered_eq (r : ComponentResult) (m : Molecule) :
    (r.add_molecule m).filtered = r.filtered := by
  unfold ComponentResult.add_molecule
  repeat' split
  all_goals rfl

theorem add_fail_reason_eq (r : ComponentResult) (m : Molecule) :
    (r.add_molecule m).fail_reason = r.fail_reason := by
  unfold ComponentResult.add_molecule
  repeat' split
  all_goals rfl

theorem filter_fail_reason_eq (r : ComponentResult) (m : Molecule) :
    (r.filter_molecule m).fail_reason = r.fail_reason := by
  unfold ComponentResult.filter_molecule
  split
  · rfl
  · rfl

theorem filteredIdents_add (r : ComponentResult) (m : Molecule) :
    filteredIdents (r.add_molecule m) = filteredIdents r := by
  unfold filteredIdents
  rw [add_filtered_eq]

theorem mergeMap_idents (l : List Molecule) (m : Molecule) :
    (l.map (fun p => if p.ident = m.ident then
        { p with conformers := p.conformers ++ m.conformers } else p)).map
      Molecule.ident = l.map Molecule.ident := by
  induction l with
  | nil => rfl
  | cons a t ih =>
      by_cases h : a.ident = m.ident <;> simp [h, ih]

theorem passedIdents_merge (r : ComponentResult) (m : Molecule) :
    passedIdents { r with passed := r.passed.map (fun p =>
      if p.ident = m.ident then
        { p with conformers := p.conformers ++ m.conformers }
      else p) } = passedIdents r := by
  unfold passedIdents
  exact mergeMap_idents r.passed m

theorem passedIdents_add (r : ComponentResult) (m : Molecule) :
    passedIdents (r.add_molecule m) = passedIdents r ∨
      (m.ident ∉ filteredIdents r ∧ m.ident ∉ passedIdents r ∧
        passedIdents (r.add_molecule m) = passedIdents r ++ [m.ident]) := by
  unfold ComponentResult.add_molecule
  split
  · exact Or.inl rfl
  · rename_i hf
    split
    · rename_i hp
      split
      · exact Or.inl rfl
      · exact Or.inl (passedIdents_merge r m)
    · rename_i hp
      exact Or.inr ⟨hf, hp, by simp [passedIdents]⟩

theorem mem_passed_add_of_mem {r : ComponentResult} {x : Nat} (m : Molecule)
    (h : x ∈ passedIdents r) : x ∈ passedIdents (r.add_molecule m) := by
  rcases passedIdents_add r m with heq | ⟨_, _, heq⟩ <;> rw [heq]
  · exact h
  · exact List.mem_append_left _ h

theorem add_eq_of_filtered {r : ComponentResult} {m : Molecule}
    (h : m.ident ∈ filteredIdents r) : r.add_molecule m = r := by
  unfold ComponentResult.add_molecule
  rw [if_pos h]

theorem mem_passed_add_self {r : ComponentResult} {m : Molecule}
    (hf : m.ident ∉ filteredIdents r) :
    m.ident ∈ passedIdents (r.add_molecule m) := by
  unfold ComponentResult.add_molecule
  rw [if_neg hf]
  split
  · rename_i hp
    split
    · exact hp
    · rw [passedIdents_merge]
      exact hp
  · simp [passedIdents]

theorem accounted_add_self (r : ComponentResult) (m : Molecule) :
    accounted (r.add_molecule m) m.ident := by
  by_cases h : m.ident ∈ filteredIdents r
  · rw [add_eq_of_filtered h]
    exact Or.inr h
  · exact Or.inl (mem_passed_add_self h)

theorem accounted_mono_add {r : ComponentResult} {x : Nat} (m : Molecule)
    (h : accounted r x) : accounted (r.add_molecule m) x := by
  cases h with
  | inl h => exact Or.inl (mem_passed_add_of_mem m h)
  | inr h => exact Or.inr (by rw [filteredIdents_add]; exact h)

theorem filter_eq_of_mem {r : ComponentResult} {m : Molecule}
    (h : m.ident ∈ filteredIdents r) : r.filter_molecule m = r := by
  unfold ComponentResult.filter_molecule
  rw [if_pos h]

theorem filter_result_of_not_mem {r : ComponentResult} {m : Molecule}
    (h : m.ident ∉ filteredIdents r) :
    r.filter_molecule m = { r with
      passed := r.passed.filter (fun p => p.ident ≠ m.ident),
      filtered := r.filtered ++ [(m, r.fail_reason)] } := by
  unfold ComponentResult.filter_molecule
  rw [if_neg h]

theorem mem_filtered_filter_self (r : ComponentResult) (m : Molecule) :
    m.ident ∈ filteredIdents (r.filter_molecule m) := by
  by_cases h : m.ident ∈ filteredIdents r
  · rw [filter_eq_of_mem h]
    exact h
  · rw [filter_result_of_not_mem h]
    simp [filteredIdents]

theorem mem_filtered_filter_of_mem {r : ComponentResult} {x : Nat}
    (m : Molecule) (h : x ∈ filteredIdents r) :
    x ∈ filteredIdents (r.filter_molecule m) := by
  by_cases hm : m.ident ∈ filteredIdents r
  · rw [filter_eq_of_mem hm]
    exact h
  · rw [filter_result_of_not_mem hm]
    unfold filteredIdents at h ⊢
    simp only [List.map_append, List.mem_append]
    exact Or.inl h

theorem accounted_mono_filter {r : ComponentResult} {x : Nat} (m : Molecule)
    (h : accounted r x) : accounted (r.filter_molecule m) x := by
  by_cases hm : m.ident ∈ filteredIdents r
  · rw [filter_eq_of_mem hm]
    exact h
  · rw [filter_result_of_not_mem hm]
    cases h with
    | inl hp =>
        by_cases hx : x = m.ident
        · right
          simp [filteredIdents, hx]
        · left
          unfold passedIdents at hp ⊢
          simp only [List.mem_map, List.mem_filter, decide_eq_true_eq] at hp ⊢
          obtain ⟨p, hpmem, hpid⟩ := hp
          exact ⟨p, ⟨hpmem, by rw [hpid]; exact hx⟩, hpid⟩
    | inr hf =>
        right
        unfold filteredIdents at hf ⊢
        simp only [List.map_append, List.mem_append]
        exact Or.inl hf

theorem disjoint_add {r : ComponentResult} (m : Molecule)
    (h : disjointResult r) : disjointResult (r.add_molecule m) := by
  intro x hx
  rw [filteredIdents_add]
  rcases passedIdents_add r m with heq | ⟨hfm, _, heq⟩ <;> rw [heq] at hx
  · exact h x hx
  · rcases List.mem_append.mp hx with hx | hx
    · exact h x hx
    · rw [List.mem_singleton.mp hx]
      exact hfm

theorem disjoint_filter {r : ComponentResult} (m : Molecule)
    (h : disjointResult r) : disjointResult (r.filter_molecule m) := by
  by_cases hm : m.ident ∈ filteredIdents r
  · rw [filter_eq_of_mem hm]
    exact h
  · rw [filter_result_of_not_mem hm]
    intro x hx
    unfold passedIdents at hx
    simp only [List.mem_map, List.mem_filter, decide_eq_true_eq] at hx
    obtain ⟨p, ⟨hpmem, hpne⟩, hpid⟩ := hx
    unfold filteredIdents
    simp only [List.map_append, List.mem_append, List.map_cons,
      List.map_nil, List.mem_singleton]
    rintro (hold | hnew)
    · exact h x (by exact List.mem_map.mpr ⟨p, hpmem, hpid⟩) hold
    · rw [← hpid] at hnew
      exact hpne hnew

theorem disjoint_create (name fail : String) (props : ComponentProperties) :
    disjointResult (create_result name fail props) := by
  intro x hx
  simp [create_result, passedIdents] at hx

theorem reasons_add {r : ComponentResult} (m : Molecule)
    (h : reasonsOk r) : reasonsOk (r.add_molecule m) := by
  intro p hp
  rw [add_filtered_eq] at hp
  rw [add_fail_reason_eq]
  exact h p hp

theorem reasons_filter {r : ComponentResult} (m : Molecule)
    (h : reasonsOk r) : reasonsOk (r.filter_molecule m) := by
  by_cases hm : m.ident ∈ filteredIdents r
  · rw [filter_eq_of_mem hm]
    exact h
  · rw [filter_result_of_not_mem hm]
    intro p hp
    rcases List.mem_append.mp hp with hp | hp
    · exact h p hp
    · rw [List.mem_singleton.mp hp]

theorem reasons_create (name fail : String) (props : ComponentProperties) :
    reasonsOk (create_result name fail props) := by
  intro p hp
  simp [create_result] at hp

theorem foldl_pred {α : Type} (P : ComponentResult → Prop)
    (step : ComponentResult → α → ComponentResult)
    (hstep : ∀ r a, P r → P (step r a)) :
    ∀ (l : List α) (r : ComponentResult), P r → P (l.foldl step r) := by
  intro l
  induction l with
  | nil => exact fun r h => h
  | cons a t ih => exact fun r h => ih _ (hstep r a h)

theorem foldl_pred_all {α : Type} (P : ComponentResult → α → Prop)
    (step : ComponentResult → α → ComponentResult)
    (hmono : ∀ r a b, P r b → P (step r a) b)
    (hself : ∀ r a, P (step r a) a) :
    ∀ (l : List α) (r : ComponentResult) (a : α), a ∈ l →
      P (l.foldl step r) a := by
  intro l
  induction l with
  | nil =>
      intro r a h
      cases h
  | cons b t ih =>
      intro r a h
      rcases List.mem_cons.mp h with rfl | h
      · exact foldl_pred (fun s => P s a) step
          (fun s c hc => hmono s c a hc) t _ (hself r a)
      · exact ih _ a h

theorem accounted_tautomerStep_self (tk : Toolkit) (c : EnumerateTautomers)
    (r : ComponentResult) (m : Molecule) :
    accounted (tautomerStep tk c r m) m.ident := by
  unfold tautomerStep
  split
  · exact accounted_add_self _ m
  · exact Or.inr (mem_filtered_filter_self r m)

theorem accounted_mono_tautomerStep (tk : Toolkit) (c : EnumerateTautomers)
    (r : ComponentResult) (m : Molecule) {x : Nat} (h : accounted r x) :
    accounted (tautomerStep tk c r m) x := by
  unfold tautomerStep
  split
  · exact accounted_mono_add m
      (foldl_pred (fun s => accounted s x) ComponentResult.add_molecule
        (fun s a ha => accounted_mono_add a ha) _ r h)
  · exact accounted_mono_filter m h

theorem disjoint_tautomerStep (tk : Toolkit) (c : EnumerateTautomers)
    (r : ComponentResult) (m : Molecule) (h : disjointResult r) :
    disjointResult (tautomerStep tk c r m) := by
  unfold tautomerStep
  split
  · exact disjoint_add m
      (foldl_pred disjointResult ComponentResult.add_molecule
        (fun s a ha => disjoint_add a ha) _ r h)
  · exact disjoint_filter m h

theorem accounted_protomerStep_self (tk : Toolkit) (c : EnumerateProtomers)
    (r : ComponentResult) (m : Molecule) :
    accounted (protomerStep tk c r m) m.ident := by
  unfold protomerStep
  split
  · exact accounted_add_self _ m
  · exact Or.inr (mem_filtered_filter_self r m)

theorem accounted_mono_protomerStep (tk : Toolkit) (c : EnumerateProtomers)
    (r : ComponentResult) (m : Molecule) {x : Nat} (h : accounted r x) :
    accounted (protomerStep tk c r m) x := by
  unfold protomerStep
  split
  · exact accounted_mono_add m
      (foldl_pred (fun s => accounted s x) ComponentResult.add_molecule
        (fun s a ha => accounted_mono_add a ha) _ r h)
  · exact accounted_mono_filter m h

theorem disjoint_protomerStep (tk : Toolkit) (c : EnumerateProtomers)
    (r : ComponentResult) (m : Molecule) (h : disjointResult r) :
    disjointResult (protomerStep tk c r m) := by
  unfold protomerStep
  split
  · exact disjoint_add m
      (foldl_pred disjointResult ComponentResult.add_molecule
        (fun s a ha => disjoint_add a ha) _ r h)
  · exact disjoint_filter m h

theorem disjoint_stereoFoldIsomers (tk : Toolkit) (r : ComponentResult)
    (isomers : List Molecule) (h : disjointResult r) :
    disjointResult (stereoFoldIsomers tk r isomers) := by
  unfold stereoFoldIsomers
  refine foldl_pred disjointResult _ ?_ isomers r h
  intro s a hs
  by_cases hc : tk.check_missing_stereo a
  · simpa [hc] using hs
  · simpa [hc] using disjoint_add a hs

theorem disjoint_stereoFinish (tk : Toolkit) (c : EnumerateStereoisomers)
    (r1 : ComponentResult) (m : Molecule) (h : disjointResult r1) :
    disjointResult (stereoFinish tk c r1 m) := by
  unfold stereoFinish
  split
  · exact disjoint_filter m h
  · split
    · exact disjoint_add _ h
    · exact h

theorem disjoint_stereoisomerStep (tk : Toolkit)
    (c : EnumerateStereoisomers) (r : ComponentResult) (m : Molecule)
    (h : disjointResult r) : disjointResult (stereoisomerStep tk c r m) := by
  unfold stereoisomerStep
  split
  · exact disjoint_filter m h
  · exact disjoint_stereoFinish tk c _ m (disjoint_stereoFoldIsomers tk r _ h)

theorem add_fresh {r : ComponentResult} {m : Molecule}
    (h1 : m.ident ∉ filteredIdents r) (h2 : m.ident ∉ passedIdents r) :
    r.add_molecule m = { r with passed := r.passed ++ [m] } := by
  unfold ComponentResult.add_molecule
  rw [if_neg h1, if_neg h2]

theorem fold_add_filtered (l : List Molecule) (r : ComponentResult) :
    (l.foldl ComponentResult.add_molecule r).filtered = r.filtered := by
  induction l generalizing r with
  | nil => rfl
  | cons a t ih =>
      rw [List.foldl_cons, ih, add_filtered_eq]

theorem filteredIdents_fold_add (l : List Molecule) (r : ComponentResult) :
    filteredIdents (l.foldl ComponentResult.add_molecule r) =
      filteredIdents r := by
  unfold filteredIdents
  rw [fold_add_filtered]

theorem fold_add_fail_reason (l : List Molecule) (r : ComponentResult) :
    (l.foldl ComponentResult.add_molecule r).fail_reason = r.fail_reason := by
  induction l generalizing r with
  | nil => rfl
  | cons a t ih =>
      rw [List.foldl_cons, ih, add_fail_reason_eq]

theorem fold_add_passed (l : List Molecule) (r : ComponentResult)
    (hnd : ((r.passed ++ l).map Molecule.ident).Nodup)
    (hf : ∀ a ∈ l, a.ident ∉ filteredIdents r) :
    (l.foldl ComponentResult.add_molecule r).passed = r.passed ++ l := by
  induction l generalizing r with
  | nil => simp
  | cons a t ih =>
      have hfa : a.ident ∉ filteredIdents r := hf a (List.mem_cons_self a t)
      have hnd' := hnd
      rw [List.map_append] at hnd'
      obtain ⟨_, _, hdisj⟩ := List.nodup_append.mp hnd'
      have hpa : a.ident ∉ passedIdents r := by
        intro hmem
        exact hdisj hmem (by simp)
      have hadd := add_fresh hfa hpa
      rw [List.foldl_cons, hadd]
      have hnd2 : ((({ r with passed := r.passed ++ [a] }
          : ComponentResult).passed ++ t).map Molecule.ident).Nodup := by
        simpa [List.append_assoc] using hnd
      have hf2 : ∀ b ∈ t, b.ident ∉
          filteredIdents { r with passed := r.passed ++ [a] } := by
        intro b hb
        exact hf b (List.mem_cons_of_mem a hb)
      rw [ih _ hnd2 hf2]
      simp [List.append_assoc]

theorem fold_add_mem (l : List Molecule) (r : ComponentResult)
    (hfE : r.filtered = []) :
    ∀ a ∈ l, a.ident ∈ passedIdents (l.foldl ComponentResult.add_molecule r) := by
  induction l generalizing r with
  | nil =>
      intro a h
      cases h
  | cons b t ih =>
      intro a h
      rcases List.mem_cons.mp h with rfl | h
      · rw [List.foldl_cons]
        refine foldl_pred (fun s => a.ident ∈ passedIdents s) _
          (fun s c hc => mem_passed_add_of_mem c hc) t _ ?_
        exact mem_passed_add_self (by simp [filteredIdents, hfE])
      · rw [List.foldl_cons]
        exact ih _ (by rw [add_filtered_eq]; exact hfE) a h

theorem filter_passed_nil {r : ComponentResult} (m : Molecule)
    (h : r.passed = []) : (r.filter_molecule m).passed = [] := by
  by_cases hm : m.ident ∈ filteredIdents r
  · rw [filter_eq_of_mem hm]
    exact h
  · rw [filter_result_of_not_mem hm]
    simp [h]

theorem fold_filter_passed_nil (ms : List Molecule) (r : ComponentResult)
    (h : r.passed = []) :
    (ms.foldl ComponentResult.filter_molecule r).passed = [] :=
  foldl_pred (fun s => s.passed = []) _
    (fun _s a hs => filter_passed_nil a hs) ms r h

theorem fold_filter_filtered_length (ms : List Molecule)
    (r : ComponentResult) (hnd : (ms.map Molecule.ident).Nodup)
    (hdisj : ∀ m ∈ ms, m.ident ∉ filteredIdents r) :
    (ms.foldl ComponentResult.filter_molecule r).filtered.length =
      r.filtered.length + ms.length := by
  induction ms generalizing r with
  | nil => simp
  | cons a t ih =>
      have ha : a.ident ∉ filteredIdents r := hdisj a (List.mem_cons_self a t)
      rw [List.foldl_cons, filter_result_of_not_mem ha]
      have hnd' : (t.map Molecule.ident).Nodup :=
        (List.nodup_cons.mp (by simpa using hnd)).2
      have hane : a.ident ∉ t.map Molecule.ident :=
        (List.nodup_cons.mp (by simpa using hnd)).1
      have hdisj' : ∀ m ∈ t, m.ident ∉ filteredIdents
          { r with passed := r.passed.filter (fun p => p.ident ≠ a.ident),
                   filtered := r.filtered ++ [(a, r.fail_reason)] } := by
        intro m hm
        unfold filteredIdents
        simp only [List.map_append, List.mem_append, List.map_cons,
          List.map_nil, List.mem_singleton]
        rintro (hold | hnew)
        · exact hdisj m (List.mem_cons_of_mem a hm) hold
        · exact hane (hnew ▸ List.mem_map_of_mem Molecule.ident hm)
      rw [ih _ hnd' hdisj']
      simp only [List.length_append, List.length_cons, List.length_nil]
      omega

theorem accounted_mono_mergeUnit {r : ComponentResult} {x : Nat}
    (u : ComponentResult) (h : accounted r x) :
    accounted (mergeUnit r u) x := by
  unfold mergeUnit
  refine foldl_pred (fun s => accounted s x) _
    (fun s a ha => accounted_mono_filter a ha) _ _ ?_
  exact foldl_pred (fun s => accounted s x) _
    (fun s a ha => accounted_mono_add a ha) _ _ h

theorem accounted_mergeUnit_of_unit {r u : ComponentResult} {x : Nat}
    (h : accounted u x) : accounted (mergeUnit r u) x := by
  unfold mergeUnit
  cases h with
  | inl hp =>
      unfold passedIdents at hp
      obtain ⟨p, hpmem, rfl⟩ := List.mem_map.mp hp
      refine foldl_pred (fun s => accounted s p.ident) _
        (fun s a ha => accounted_mono_filter a ha) _ _ ?_
      exact foldl_pred_all (fun s (mm : Molecule) => accounted s mm.ident)
        ComponentResult.add_molecule
        (fun s a b hb => accounted_mono_add a hb)
        (fun s a => accounted_add_self s a) u.passed r p hpmem
  | inr hf =>
      unfold filteredIdents at hf
      obtain ⟨q, hq, rfl⟩ := List.mem_map.mp hf
      exact foldl_pred_all (fun s (mm : Molecule) => accounted s mm.ident)
        ComponentResult.filter_molecule
        (fun s a b hb => accounted_mono_filter a hb)
        (fun s a => Or.inr (mem_filtered_filter_self s a)) _ _ q.1
        (List.mem_map_of_mem _ hq)

theorem disjoint_mergeUnit {r : ComponentResult} (u : ComponentResult)
    (h : disjointResult r) : disjointResult (mergeUnit r u) := by
  unfold mergeUnit
  refine foldl_pred disjointResult _
    (fun s a ha => disjoint_filter a ha) _ _ ?_
  exact foldl_pred disjointResult _
    (fun s a ha => disjoint_add a ha) _ _ h

theorem poolApply_eq_sequentialApply (f : Molecule → ComponentResult)
    (init : ComponentResult) (ms : List Molecule) :
    poolApply f init ms = sequentialApply f init ms := by
  unfold poolApply sequentialApply
  induction ms generalizing init with
  | nil => rfl
  | cons a t ih =>
      simp only [List.map_cons, List.foldl_cons]
      exact ih _

theorem applyDispatch_eq_seq (props : ComponentProperties)
    (name fail : String) (f : Molecule → ComponentResult)
    (processors : Option Nat) (ms : List Molecule) :
    applyDispatch props name fail f processors ms =
      sequentialApply f (create_result name fail props) ms := by
  unfold applyDispatch
  cases selectMode props processors
  · exact poolApply_eq_sequentialApply f _ ms
  · rfl

theorem accounted_sequentialApply {f : Molecule → ComponentResult}
    (init : ComponentResult)
    (hf : ∀ m : Molecule, accounted (f m) m.ident) (ms : List Molecule)
    (m : Molecule) (hm : m ∈ ms) :
    accounted (sequentialApply f init ms) m.ident := by
  unfold sequentialApply
  exact foldl_pred_all (fun s (mm : Molecule) => accounted s mm.ident)
    (fun r mm => mergeUnit r (f mm))
    (fun r a b hb => accounted_mono_mergeUnit (f a) hb)
    (fun r a => accounted_mergeUnit_of_unit (hf a)) ms init m hm

theorem disjoint_sequentialApply {f : Molecule → ComponentResult}
    (init : ComponentResult) (h : disjointResult init) (ms : List Molecule) :
    disjointResult (sequentialApply f init ms) := by
  unfold sequentialApply
  exact foldl_pred disjointResult _
    (fun r a ha => disjoint_mergeUnit (f a) ha) ms init h

theorem accounted_tautomer_applyC (c : EnumerateTautomers) (tk : Toolkit)
    (ms : List Molecule) (m : Molecule) (hm : m ∈ ms) :
    accounted (c.applyC tk ms) m.ident := by
  unfold EnumerateTautomers.applyC
  exact foldl_pred_all (fun s (mm : Molecule) => accounted s mm.ident)
    (tautomerStep tk c)
    (fun r a b hb => accounted_mono_tautomerStep tk c r a hb)
    (fun r a => accounted_tautomerStep_self tk c r a) ms _ m hm

theorem disjoint_tautomer_applyC (c : EnumerateTautomers) (tk : Toolkit)
    (ms : List Molecule) : disjointResult (c.applyC tk ms) := by
  unfold EnumerateTautomers.applyC
  refine foldl_pred disjointResult _
    (fun r a ha => disjoint_tautomerStep tk c r a ha) ms _ ?_
  unfold EnumerateTautomers.createResult
  exact disjoint_create _ _ _

theorem accounted_protomer_applyC (c : EnumerateProtomers) (tk : Toolkit)
    (has_oe : Bool) (ms : List Molecule) (m : Molecule) (hm : m ∈ ms) :
    accounted (c.applyC tk has_oe ms) m.ident := by
  unfold EnumerateProtomers.applyC
  split
  · exact foldl_pred_all (fun s (mm : Molecule) => accounted s mm.ident)
      (protomerStep tk c)
      (fun r a b hb => accounted_mono_protomerStep tk c r a hb)
      (fun r a => accounted_protomerStep_self tk c r a) ms _ m hm
  · exact foldl_pred_all (fun s (mm : Molecule) => accounted s mm.ident)
      ComponentResult.filter_molecule
      (fun r a b hb => accounted_mono_filter a hb)
      (fun r a => Or.inr (mem_filtered_filter_self r a)) ms _ m hm

theorem disjoint_protomer_applyC (c : EnumerateProtomers) (tk : Toolkit)
    (has_oe : Bool) (ms : List Molecule) :
    disjointResult (c.applyC tk has_oe ms) := by
  unfold EnumerateProtomers.applyC
  have hinit : disjointResult c.createResult := by
    unfold EnumerateProtomers.createResult
    exact disjoint_create _ _ _
  split
  · exact foldl_pred disjointResult _
      (fun r a ha => disjoint_protomerStep tk c r a ha) ms _ hinit
  · exact foldl_pred disjointResult _
      (fun r a ha => disjoint_filter a ha) ms _ hinit

theorem exactlyOne_of {r : ComponentResult} {x : Nat} (h1 : accounted r x)
    (h2 : disjointResult r) : exactlyOne r x := by
  cases h1 with
  | inl hp => exact Or.inl ⟨hp, h2 x hp⟩
  | inr hf =>
      by_cases hp : x ∈ passedIdents r
      · exact absurd hf (h2 x hp)
      · exact Or.inr ⟨hp, hf⟩

theorem mem_passed_filter_sub {r : ComponentResult} {m : Molecule}
    {x : Nat} (h : x ∈ passedIdents (r.filter_molecule m)) :
    x ∈ passedIdents r := by
  by_cases hm : m.ident ∈ filteredIdents r
  · rw [filter_eq_of_mem hm] at h
    exact h
  · rw [filter_result_of_not_mem hm] at h
    unfold passedIdents at h ⊢
    simp only [List.mem_map, List.mem_filter, decide_eq_true_eq] at h ⊢
    obtain ⟨p, ⟨hpmem, _⟩, hpid⟩ := h
    exact ⟨p, hpmem, hpid⟩

theorem sfi_filtered (tk : Toolkit) (l : List Molecule)
    (r : ComponentResult) :
    (stereoFoldIsomers tk r l).filtered = r.filtered := by
  unfold stereoFoldIsomers
  refine foldl_pred (fun s => s.filtered = r.filtered) _ ?_ l r rfl
  intro s a hs
  by_cases hc : tk.check_missing_stereo a
  · simpa [hc] using hs
  · simpa [hc, add_filtered_eq] using hs

theorem sfi_mem (tk : Toolkit) (l : List Molecule) (r : ComponentResult)
    (hf : r.filtered = []) :
    ∀ i ∈ l, tk.check_missing_stereo i = false →
      i.ident ∈ passedIdents (stereoFoldIsomers tk r l) := by
  unfold stereoFoldIsomers
  induction l generalizing r with
  | nil =>
      intro i h
      cases h
  | cons b t ih =>
      intro i h hc
      rcases List.mem_cons.mp h with rfl | h
      · rw [List.foldl_cons]
        refine foldl_pred (fun s => i.ident ∈ passedIdents s) _ ?_ t _ ?_
        · intro s a hs
          by_cases hca : tk.check_missing_stereo a
          · simpa [hca] using hs
          · simpa [hca] using mem_passed_add_of_mem a hs
        · simpa [hc] using mem_passed_add_self
            (show i.ident ∉ filteredIdents r by simp [filteredIdents, hf])
      · rw [List.foldl_cons]
        refine ih _ ?_ i h hc
        by_cases hcb : tk.check_missing_stereo b
        · simpa [hcb] using hf
        · simpa [hcb, add_filtered_eq] using hf

theorem sfi_passed_sub (tk : Toolkit) (l : List Molecule)
    (r : ComponentResult) :
    ∀ x ∈ passedIdents (stereoFoldIsomers tk r l),
      x ∈ passedIdents r ∨
        ∃ i ∈ l, tk.check_missing_stereo i = false ∧ i.ident = x := by
  unfold stereoFoldIsomers
  induction l generalizing r with
  | nil =>
      intro x hx
      exact Or.inl hx
  | cons b t ih =>
      intro x hx
      rw [List.foldl_cons] at hx
      rcases ih _ x hx with hx' | ⟨i, hi, hci, hxi⟩
      · by_cases hcb : tk.check_missing_stereo b
        · simp only [hcb, Bool.not_true, Bool.false_eq_true, if_false]
            at hx'
          exact Or.inl hx'
        · have hcb' : tk.check_missing_stereo b = false := by
            simpa using hcb
          simp only [hcb', Bool.not_false, if_true] at hx'
          rcases passedIdents_add r b with heq | ⟨_, _, heq⟩ <;>
            rw [heq] at hx'
          · exact Or.inl hx'
          · rcases List.mem_append.mp hx' with h1 | h1
            · exact Or.inl h1
            · exact Or.inr ⟨b, List.mem_cons_self b t, hcb',
                (List.mem_singleton.mp h1).symm⟩
      · exact Or.inr ⟨i, List.mem_cons_of_mem b hi, hci, hxi⟩

theorem fail_reason_tautomerStep (tk : Toolkit) (c : EnumerateTautomers)
    (r : ComponentResult) (m : Molecule) :
    (tautomerStep tk c r m).fail_reason = r.fail_reason := by
  unfold tautomerStep
  split
  · rw [add_fail_reason_eq, fold_add_fail_reason]
  · rw [filter_fail_reason_eq]

theorem reasons_tautomerStep (tk : Toolkit) (c : EnumerateTautomers)
    (r : ComponentResult) (m : Molecule) (h : reasonsOk r) :
    reasonsOk (tautomerStep tk c r m) := by
  unfold tautomerStep
  split
  · exact reasons_add m
      (foldl_pred reasonsOk _ (fun _s a hs => reasons_add a hs) _ _ h)
  · exact reasons_filter m h

theorem memf_mono_tautomerStep (tk : Toolkit) (c : EnumerateTautomers)
    {r : ComponentResult} {x : Nat} (m : Molecule)
    (h : x ∈ filteredIdents r) :
    x ∈ filteredIdents (tautomerStep tk c r m) := by
  unfold tautomerStep
  split
  · rw [filteredIdents_add, filteredIdents_fold_add]
    exact h
  · exact mem_filtered_filter_of_mem m h

theorem reasons_tautomer_applyC (c : EnumerateTautomers) (tk : Toolkit)
    (ms : List Molecule) :
    ∀ p ∈ (c.applyC tk ms).filtered, p.2 = EnumerateTautomers.fail_reason := by
  unfold EnumerateTautomers.applyC
  have h := foldl_pred
    (fun s => reasonsOk s ∧
      s.fail_reason = EnumerateTautomers.fail_reason)
    (tautomerStep tk c)
    (fun r a hr => ⟨reasons_tautomerStep tk c r a hr.1,
      by rw [fail_reason_tautomerStep]; exact hr.2⟩)
    ms c.createResult ⟨reasons_create _ _ _, rfl⟩
  intro p hp
  rw [← h.2]
  exact h.1 p hp

theorem tautomerStep_congr (tk tk2 : Toolkit) (c : EnumerateTautomers)
    (h : ∀ mol n, scrubErr (tk2.enumerate_tautomers mol n) =
      scrubErr (tk.enumerate_tautomers mol n))
    (r : ComponentResult) (m : Molecule) :
    tautomerStep tk2 c r m = tautomerStep tk c r m := by
  have hm := h m c.max_tautomers
  unfold tautomerStep
  cases h1 : tk.enumerate_tautomers m c.max_tautomers with
  | ok l =>
      cases h2 : tk2.enumerate_tautomers m c.max_tautomers with
      | ok l2 =>
          rw [h1, h2] at hm
          unfold scrubErr at hm
          simp only [Except.ok.injEq] at hm
          rw [hm]
      | error e2 =>
          rw [h1, h2] at hm
          unfold scrubErr at hm
          cases hm
  | error e =>
      cases h2 : tk2.enumerate_tautomers m c.max_tautomers with
      | ok l2 =>
          rw [h1, h2] at hm
          unfold scrubErr at hm
          cases hm
      | error e2 => rfl

theorem tautomer_applyC_congr (c : EnumerateTautomers) (tk tk2 : Toolkit)
    (h : ∀ mol n, scrubErr (tk2.enumerate_tautomers mol n) =
      scrubErr (tk.enumerate_tautomers mol n)) (ms : List Molecule) :
    c.applyC tk2 ms = c.applyC tk ms := by
  unfold EnumerateTautomers.applyC
  have key : ∀ r, ms.foldl (tautomerStep tk2 c) r =
      ms.foldl (tautomerStep tk c) r := by
    induction ms with
    | nil => intro r; rfl
    | cons a t ih =>
        intro r
        rw [List.foldl_cons, List.foldl_cons, tautomerStep_congr tk tk2 c h]
        exact ih _
  exact key _

/-- C5: the dispatcher `apply` selects the process-parallel worker pool if
and only if the component declares `process_parallel = True` and the caller
either left the worker count unspecified or requested more than one worker;
in every other case it selects sequential execution in the calling
context. -/
theorem c5_dispatch_mode_selection (props : ComponentProperties)
    (processors : Option Nat) :
    (selectMode props processors = ExecMode.pool ↔
      props.process_parallel = true ∧
        (processors = none ∨ ∃ n, processors = some n ∧ 1 < n)) ∧
    (selectMode props processors = ExecMode.sequential ↔
      ¬(props.process_parallel = true ∧
        (processors = none ∨ ∃ n, processors = some n ∧ 1 < n))) := by
  unfold selectMode procCondition
  cases processors with
  | none =>
      by_cases hp : props.process_parallel <;> simp [hp]
  | some n =>
      by_cases hp : props.process_parallel <;>
        by_cases hn : 1 < n <;>
          simp [hp, hn]

/-- C6: for any per-unit transform and any input molecule list, the set of
passed identities and the set of filtered identities of the merged result
are the same whether the dispatcher runs the single-molecule units through
the worker-pool branch or the sequential branch. -/
theorem c6_parallel_sequential_equivalence (f : Molecule → ComponentResult)
    (init : ComponentResult) (ms : List Molecule) (x : Nat) :
    (x ∈ passedIdents (poolApply f init ms) ↔
      x ∈ passedIdents (sequentialApply f init ms)) ∧
    (x ∈ filteredIdents (poolApply f init ms) ↔
      x ∈ filteredIdents (sequentialApply f init ms)) := by
  rw [poolApply_eq_sequentialApply]
  exact ⟨Iff.rfl, Iff.rfl⟩

/-- C10 counterexample: all three enumerator components declare
`produces_duplicates = True`, yet the result each of them creates has
`skip_unique_check = false`, i.e. the uniqueness check is enabled, not
disabled as the claim states. -/
theorem c10_counterexample :
    EnumerateTautomers.properties.produces_duplicates = true ∧
    EnumerateStereoisomers.properties.produces_duplicates = true ∧
    EnumerateProtomers.properties.produces_duplicates = true ∧
    EnumerateTautomers.createResult {} =
      { component_name := "EnumerateTautomers",
        fail_reason := EnumerateTautomers.fail_reason,
        skip_unique_check := false } ∧
    (EnumerateTautomers.createResult {}).skip_unique_check = false ∧
    (EnumerateStereoisomers.createResult {}).skip_unique_check = false ∧
    (EnumerateProtomers.createResult {}).skip_unique_check = false := by
  exact ⟨rfl, rfl, rfl, rfl, rfl, rfl, rfl⟩

/-- C10 amended: each apply call creates a fresh result whose uniqueness
check is skipped exactly when the component declares
`produces_duplicates = False` (`skip_unique_check = not
properties().produces_duplicates`); since the three enumerator components
declare `produces_duplicates = True`, every result they create has
`skip_unique_check = false`, i.e. the uniqueness check enabled. -/
theorem c10_amended (props : ComponentProperties) (name fail : String)
    (c1 : EnumerateTautomers) (c2 : EnumerateStereoisomers)
    (c3 : EnumerateProtomers) :
    (create_result name fail props).skip_unique_check =
      !props.produces_duplicates ∧
    c1.createResult.skip_unique_check = false ∧
    c2.createResult.skip_unique_check = false ∧
    c3.createResult.skip_unique_check = false :=
  ⟨rfl, rfl, rfl, rfl⟩

/-- C4: when the openeye provider flag of the protomer component is unset,
`_apply` routes every input molecule of the batch to `filtered` and none to
`passed`; for inputs of pairwise distinct identities the number of filtered
entries equals the batch size. -/
theorem c4_protomers_unavailable (c : EnumerateProtomers) (tk : Toolkit)
    (ms : List Molecule) (hnd : (ms.map Molecule.ident).Nodup) :
    (c.applyC tk false ms).passed = [] ∧
    (∀ m ∈ ms, m.ident ∈ filteredIdents (c.applyC tk false ms)) ∧
    (c.applyC tk false ms).filtered.length = ms.length := by
  unfold EnumerateProtomers.applyC
  simp only [Bool.false_eq_true, if_false]
  refine ⟨?_, ?_, ?_⟩
  · exact fold_filter_passed_nil ms _ rfl
  · intro m hm
    exact foldl_pred_all
      (fun s (mm : Molecule) => mm.ident ∈ filteredIdents s)
      ComponentResult.filter_molecule
      (fun r a b hb => mem_filtered_filter_of_mem a hb)
      (fun r a => mem_filtered_filter_self r a) ms _ m hm
  · rw [fold_filter_filtered_length ms _ hnd (by intro m _; simp [filteredIdents, EnumerateProtomers.createResult, create_result])]
    simp [EnumerateProtomers.createResult, create_result]

/-- C4 witness: five distinct molecules with the provider flag unset give
five filtered entries and an empty passed collection. -/
theorem c4_protomers_unavailable_witness :
    (({} : EnumerateProtomers).applyC trivialTk false
      [mkMol 0, mkMol 1, mkMol 2, mkMol 3, mkMol 4]).passed = [] ∧
    (({} : EnumerateProtomers).applyC trivialTk false
      [mkMol 0, mkMol 1, mkMol 2, mkMol 3, mkMol 4]).filtered.length = 5 := by
  have h := c4_protomers_unavailable {} trivialTk
    [mkMol 0, mkMol 1, mkMol 2, mkMol 3, mkMol 4] (by decide)
  exact ⟨h.1, by simpa using h.2.2⟩

/-- C1 counterexample: the stereoisomer component applied to a single
molecule, in a toolkit environment where enumeration succeeds with no
isomers, conformer generation succeeds, and the molecule's stereochemistry
check reports missing stereo, returns a result in which the supplied
molecule appears in neither `passed` nor `filtered`. -/
theorem c1_counterexample :
    mkMol 0 ∈ [mkMol 0] ∧
    ¬ accounted (({} : EnumerateStereoisomers).applyC noStereoTk [mkMol 0])
      (mkMol 0).ident := by
  decide

/-- C1 amended: for the tautomer and protomer components, after the full
`apply` dispatch completes every supplied molecule's identity appears in
exactly one of `passed` and `filtered` — never both and never neither
(accounting for duplicate-producing semantics by tracking canonical
identities); the stereoisomer component is excluded because an input whose
stereochemistry remains incomplete after rationalisation is dropped from
both collections. -/
theorem c1_amended (c : EnumerateTautomers) (c' : EnumerateProtomers)
    (tk : Toolkit) (has_oe : Bool) (processors : Option Nat)
    (ms : List Molecule) (m : Molecule) (hm : m ∈ ms) :
    exactlyOne (c.applyFull tk processors ms) m.ident ∧
    exactlyOne (c'.applyFull tk has_oe processors ms) m.ident := by
  constructor
  · unfold EnumerateTautomers.applyFull
    rw [applyDispatch_eq_seq]
    refine exactlyOne_of ?_
      (disjoint_sequentialApply _ (disjoint_create _ _ _) ms)
    exact accounted_sequentialApply _
      (fun mm => accounted_tautomer_applyC c tk [mm] mm (by simp)) ms m hm
  · unfold EnumerateProtomers.applyFull
    rw [applyDispatch_eq_seq]
    refine exactlyOne_of ?_
      (disjoint_sequentialApply _ (disjoint_create _ _ _) ms)
    exact accounted_sequentialApply _
      (fun mm => accounted_protomer_applyC c' tk has_oe [mm] mm (by simp))
      ms m hm

/-- C1 amended witness: a concrete molecule supplied to both components is
accounted for in exactly one collection of each full apply result. -/
theorem c1_amended_witness :
    mkMol 7 ∈ [mkMol 7] ∧
    exactlyOne (({} : EnumerateTautomers).applyFull trivialTk (some 1)
      [mkMol 7]) (mkMol 7).ident ∧
    exactlyOne (({} : EnumerateProtomers).applyFull trivialTk true (some 1)
      [mkMol 7]) (mkMol 7).ident :=
  ⟨by decide,
   (c1_amended {} {} trivialTk true (some 1) [mkMol 7] (mkMol 7)
     (by decide)).1,
   (c1_amended {} {} trivialTk true (some 1) [mkMol 7] (mkMol 7)
     (by decide)).2⟩

/-- C2: whenever the toolkit's tautomer enumeration succeeds, the tautomer
component adds the original input molecule to `passed` in addition to every
enumerated tautomer, and filters nothing; when the input and the tautomers
have pairwise distinct identities, `passed` is exactly the tautomers
followed by the input, so three tautomers give four passed entries. -/
theorem c2_tautomers_adds_input (c : EnumerateTautomers) (tk : Toolkit)
    (m : Molecule) (ts : List Molecule)
    (hok : tk.enumerate_tautomers m c.max_tautomers = Except.ok ts) :
    m.ident ∈ passedIdents (c.applyC tk [m]) ∧
    (∀ t ∈ ts, t.ident ∈ passedIdents (c.applyC tk [m])) ∧
    (c.applyC tk [m]).filtered = [] ∧
    (((m :: ts).map Molecule.ident).Nodup →
      (c.applyC tk [m]).passed = ts ++ [m]) ∧
    (((m :: ts).map Molecule.ident).Nodup →
      (c.applyC tk [m]).passed.length = ts.length + 1) := by
  have happ : c.applyC tk [m] =
      (ts.foldl ComponentResult.add_molecule c.createResult).add_molecule
        m := by
    unfold EnumerateTautomers.applyC
    rw [List.foldl_cons, List.foldl_nil]
    unfold tautomerStep
    rw [hok]
  have hfil : (ts.foldl ComponentResult.add_molecule
      c.createResult).filtered = [] := by
    rw [fold_add_filtered]
    rfl
  have hfid : filteredIdents (ts.foldl ComponentResult.add_molecule
      c.createResult) = [] := by
    unfold filteredIdents
    rw [hfil]
    rfl
  have hpass : ((m :: ts).map Molecule.ident).Nodup →
      (c.applyC tk [m]).passed = ts ++ [m] := by
    intro hnd
    have hnd' : Molecule.ident m ∉ ts.map Molecule.ident ∧
        (ts.map Molecule.ident).Nodup :=
      List.nodup_cons.mp (by simpa using hnd)
    have h1 : (ts.foldl ComponentResult.add_molecule
        c.createResult).passed = ts := by
      have h2 := fold_add_passed ts c.createResult
        (by simpa [EnumerateTautomers.createResult, create_result]
          using hnd'.2)
        (by intro a _; simp [filteredIdents, EnumerateTautomers.createResult,
          create_result])
      simpa [EnumerateTautomers.createResult, create_result] using h2
    have hnp : m.ident ∉ passedIdents (ts.foldl
        ComponentResult.add_molecule c.createResult) := by
      unfold passedIdents
      rw [h1]
      exact hnd'.1
    rw [happ, add_fresh (by rw [hfid]; simp) hnp, h1]
  refine ⟨?_, ?_, ?_, hpass, ?_⟩
  · rw [happ]
    exact mem_passed_add_self (by rw [hfid]; simp)
  · intro t ht
    rw [happ]
    exact mem_passed_add_of_mem m (fold_add_mem ts _ rfl t ht)
  · rw [happ, add_filtered_eq, hfil]
  · intro hnd
    rw [hpass hnd]
    simp

/-- C2 witness: with a toolkit returning three tautomers for the input
molecule and the default maximum of 20, `passed` holds four entries and
`filtered` is empty. -/
theorem c2_tautomers_adds_input_witness :
    threeTautTk.enumerate_tautomers (mkMol 0)
      ({} : EnumerateTautomers).max_tautomers =
        Except.ok [mkMol 1, mkMol 2, mkMol 3] ∧
    (({} : EnumerateTautomers).applyC threeTautTk [mkMol 0]).passed.length
      = 4 ∧
    (({} : EnumerateTautomers).applyC threeTautTk [mkMol 0]).filtered
      = [] := by
  have h := c2_tautomers_adds_input {} threeTautTk (mkMol 0)
    [mkMol 1, mkMol 2, mkMol 3] rfl
  exact ⟨rfl, by simpa using h.2.2.2.2 (by decide), h.2.2.1⟩

/-- C3: when the toolkit raises on one molecule of a tautomer batch, that
molecule is routed to `filtered` and not to `passed`, every filtered entry
carries the component's static fail reason, the result does not depend on
the text of the raised exception, and every remaining molecule of the batch
is still processed and accounted for. -/
theorem c3_toolkit_exception_filtered (c : EnumerateTautomers)
    (tk : Toolkit) (pre post : List Molecule) (m : Molecule) (e : String)
    (herr : tk.enumerate_tautomers m c.max_tautomers = Except.error e) :
    m.ident ∈ filteredIdents (c.applyC tk (pre ++ m :: post)) ∧
    m.ident ∉ passedIdents (c.applyC tk (pre ++ m :: post)) ∧
    (∀ p ∈ (c.applyC tk (pre ++ m :: post)).filtered,
      p.2 = EnumerateTautomers.fail_reason) ∧
    (∀ tk2 : Toolkit,
      (∀ mol n, scrubErr (tk2.enumerate_tautomers mol n) =
        scrubErr (tk.enumerate_tautomers mol n)) →
      c.applyC tk2 (pre ++ m :: post) = c.applyC tk (pre ++ m :: post)) ∧
    (∀ m' ∈ post, accounted (c.applyC tk (pre ++ m :: post)) m'.ident) := by
  have hmemf : m.ident ∈ filteredIdents (c.applyC tk (pre ++ m :: post)) := by
    unfold EnumerateTautomers.applyC
    rw [List.foldl_append, List.foldl_cons]
    refine foldl_pred (fun s => m.ident ∈ filteredIdents s) _
      (fun _s a hs => memf_mono_tautomerStep tk c a hs) post _ ?_
    unfold tautomerStep
    rw [herr]
    exact mem_filtered_filter_self _ m
  refine ⟨hmemf, ?_, ?_, ?_, ?_⟩
  · intro hp
    exact disjoint_tautomer_applyC c tk _ m.ident hp hmemf
  · exact reasons_tautomer_applyC c tk _
  · intro tk2 h2
    exact tautomer_applyC_congr c tk tk2 h2 _
  · intro m' hm'
    exact accounted_tautomer_applyC c tk _ m' (by simp [hm'])

/-- C3 witness: in a batch of three molecules where the toolkit raises
exactly on the middle one, that molecule is filtered with the static fail
reason while the last molecule is still processed. -/
theorem c3_toolkit_exception_filtered_witness :
    failOnOneTk.enumerate_tautomers (mkMol 1)
      ({} : EnumerateTautomers).max_tautomers =
        Except.error "kekulization failed" ∧
    (mkMol 1).ident ∈ filteredIdents
      (({} : EnumerateTautomers).applyC failOnOneTk
        ([mkMol 0] ++ mkMol 1 :: [mkMol 2])) ∧
    accounted (({} : EnumerateTautomers).applyC failOnOneTk
      ([mkMol 0] ++ mkMol 1 :: [mkMol 2])) (mkMol 2).ident := by
  have h := c3_toolkit_exception_filtered {} failOnOneTk [mkMol 0] [mkMol 2]
    (mkMol 1) "kekulization failed" rfl
  exact ⟨rfl, h.1, h.2.2.2.2 (mkMol 2) (by decide)⟩

/-- C7: when stereoisomer enumeration succeeds, every returned isomer whose
fully-defined-stereo check passes is added to `passed`, and nothing reaches
`passed` except such isomers and the (conditionally included, post-
rationalisation) input molecule; isomers with unresolved stereo are silently
dropped — the only identity that can ever be filtered is the input's; and
when `rationalise` is set the conformer-generation attempt for the input
decides whether the input is checked and included or routed to
`filtered`. -/
theorem c7_stereoisomer_policy (c : EnumerateStereoisomers) (tk : Toolkit)
    (m : Molecule) (isomers : List Molecule)
    (hok : tk.enumerate_stereoisomers m c.undefined_only c.max_isomers
      c.rationalise = Except.ok isomers) :
    (∀ m2, (if c.rationalise then tk.generate_conformers m
        else Except.ok m) = Except.ok m2 →
      (c.applyC tk [m]).filtered = [] ∧
      (∀ i ∈ isomers, tk.check_missing_stereo i = false →
        i.ident ∈ passedIdents (c.applyC tk [m])) ∧
      (tk.check_missing_stereo m2 = false →
        m2.ident ∈ passedIdents (c.applyC tk [m]))) ∧
    (∀ x ∈ passedIdents (c.applyC tk [m]),
      (∃ i ∈ isomers, tk.check_missing_stereo i = false ∧ i.ident = x) ∨
      (∃ m2, (if c.rationalise then tk.generate_conformers m
          else Except.ok m) = Except.ok m2 ∧
        tk.check_missing_stereo m2 = false ∧ m2.ident = x)) ∧
    (c.rationalise = true → ∀ e, tk.generate_conformers m =
        Except.error e → m.ident ∈ filteredIdents (c.applyC tk [m])) ∧
    (∀ x ∈ filteredIdents (c.applyC tk [m]), x = m.ident) := by
  have happ : c.applyC tk [m] =
      stereoFinish tk c (stereoFoldIsomers tk c.createResult isomers) m := by
    unfold EnumerateStereoisomers.applyC
    rw [List.foldl_cons, List.foldl_nil]
    unfold stereoisomerStep
    rw [hok]
  have hr1f : (stereoFoldIsomers tk c.createResult isomers).filtered
      = [] := by
    rw [sfi_filtered]
    rfl
  have hr1fid : filteredIdents (stereoFoldIsomers tk c.createResult
      isomers) = [] := by
    unfold filteredIdents
    rw [hr1f]
    rfl
  refine ⟨?_, ?_, ?_, ?_⟩
  · intro m2 hgen
    rw [happ]
    unfold stereoFinish
    rw [hgen]
    refine ⟨?_, ?_, ?_⟩
    · by_cases hc2 : tk.check_missing_stereo m2
      · simpa [hc2] using hr1f
      · simpa [hc2, add_filtered_eq] using hr1f
    · intro i hi hci
      have hbase := sfi_mem tk isomers c.createResult rfl i hi hci
      by_cases hc2 : tk.check_missing_stereo m2
      · simpa [hc2] using hbase
      · simpa [hc2] using mem_passed_add_of_mem m2 hbase
    · intro hc2
      simp only [hc2, Bool.not_false, if_true]
      exact mem_passed_add_self (by rw [hr1fid]; simp)
  · intro x hx
    rw [happ] at hx
    unfold stereoFinish at hx
    revert hx
    cases hgen : (if c.rationalise then tk.generate_conformers m
        else Except.ok m) with
    | error e =>
        intro hx
        have hx' := mem_passed_filter_sub hx
        rcases sfi_passed_sub tk isomers c.createResult x hx' with h0 | hiso
        · simp [passedIdents, EnumerateStereoisomers.createResult,
            create_result] at h0
        · exact Or.inl hiso
    | ok m2 =>
        intro hx
        by_cases hc2 : tk.check_missing_stereo m2
        · simp only [hc2, Bool.not_true, Bool.false_eq_true, if_false]
            at hx
          rcases sfi_passed_sub tk isomers c.createResult x hx with h0 | hiso
          · simp [passedIdents, EnumerateStereoisomers.createResult,
              create_result] at h0
          · exact Or.inl hiso
        · have hc2' : tk.check_missing_stereo m2 = false := by
            simpa using hc2
          simp only [hc2', Bool.not_false, if_true] at hx
          rcases passedIdents_add (stereoFoldIsomers tk c.createResult
              isomers) m2 with heq | ⟨_, _, heq⟩ <;> rw [heq] at hx
          · rcases sfi_passed_sub tk isomers c.createResult x hx with
              h0 | hiso
            · simp [passedIdents, EnumerateStereoisomers.createResult,
                create_result] at h0
            · exact Or.inl hiso
          · rcases List.mem_append.mp hx with h1 | h1
            · rcases sfi_passed_sub tk isomers c.createResult x h1 with
                h0 | hiso
              · simp [passedIdents, EnumerateStereoisomers.createResult,
                  create_result] at h0
              · exact Or.inl hiso
            · exact Or.inr ⟨m2, rfl, hc2',
                (List.mem_singleton.mp h1).symm⟩
  · intro hrat e hgenerr
    rw [happ]
    unfold stereoFinish
    simp only [hrat, if_true, hgenerr]
    exact mem_filtered_filter_self _ m
  · intro x hx
    rw [happ] at hx
    unfold stereoFinish at hx
    revert hx
    cases hgen : (if c.rationalise then tk.generate_conformers m
        else Except.ok m) with
    | error e =>
        intro hx
        rw [filter_result_of_not_mem (by rw [hr1fid]; simp)] at hx
        unfold filteredIdents at hx
        rw [hr1f] at hx
        simpa using hx
    | ok m2 =>
        intro hx
        by_cases hc2 : tk.check_missing_stereo m2
        · simp only [hc2, Bool.not_true, Bool.false_eq_true, if_false]
            at hx
          rw [hr1fid] at hx
          cases hx
        · have hc2' : tk.check_missing_stereo m2 = false := by
            simpa using hc2
          simp only [hc2', Bool.not_false, if_true] at hx
          rw [filteredIdents_add, hr1fid] at hx
          cases hx

/-- C7 witness: a toolkit returning isomers 1 and 2 for the input, isomer 2
having missing stereo, gives a result whose passed entries include isomer 1
and whose filtered collection is empty. -/
theorem c7_stereoisomer_policy_witness :
    twoIsomerTk.enumerate_stereoisomers (mkMol 0)
      ({} : EnumerateStereoisomers).undefined_only
      ({} : EnumerateStereoisomers).max_isomers
      ({} : EnumerateStereoisomers).rationalise =
        Except.ok [mkMol 1, mkMol 2] ∧
    (({} : EnumerateStereoisomers).applyC twoIsomerTk [mkMol 0]).filtered
      = [] ∧
    (mkMol 1).ident ∈ passedIdents
      (({} : EnumerateStereoisomers).applyC twoIsomerTk [mkMol 0]) := by
  have h := c7_stereoisomer_policy {} twoIsomerTk (mkMol 0)
    [mkMol 1, mkMol 2] rfl
  have h2 := h.1 (mkMol 0) rfl
  exact ⟨rfl, h2.1, h2.2.1 (mkMol 1) (by decide) rfl⟩

/-- C8: a recognized toolkit provider name passes configuration validation
unchanged, an unrecognized name is rejected at validation time — before any
component exists to process a molecule — with the `ValueError` message, and
that message lists both valid provider choices. -/
theorem c8_toolkit_validation (t : String) (n : Nat) :
    (t ∈ toolkitKeys → check_toolkit toolkitKeys t = Except.ok t ∧
      EnumerateTautomers.mkValidated t n =
        Except.ok { toolkit := t, max_tautomers := n }) ∧
    (t ∉ toolkitKeys →
      check_toolkit toolkitKeys t =
        Except.error (invalidToolkitMsg toolkitKeys t) ∧
      EnumerateTautomers.mkValidated t n =
        Except.error (invalidToolkitMsg toolkitKeys t)) ∧
    "rdkit".data <:+: (invalidToolkitMsg toolkitKeys t).data ∧
    "openeye".data <:+: (invalidToolkitMsg toolkitKeys t).data := by
  refine ⟨?_, ?_, ?_, ?_⟩
  · intro h
    have hchk : check_toolkit toolkitKeys t = Except.ok t := by
      unfold check_toolkit
      rw [if_pos h]
    refine ⟨hchk, ?_⟩
    unfold EnumerateTautomers.mkValidated
    rw [hchk]
  · intro h
    have hchk : check_toolkit toolkitKeys t =
        Except.error (invalidToolkitMsg toolkitKeys t) := by
      unfold check_toolkit
      rw [if_neg h]
    refine ⟨hchk, ?_⟩
    unfold EnumerateTautomers.mkValidated
    rw [hchk]
  · refine ⟨"The requested toolkit (".data ++ t.data ++
      (") is not support by the OFFTK. Please chose from ").data,
      (", openeye.").data, ?_⟩
    unfold invalidToolkitMsg toolkitKeys
    simp only [String.data_append, List.append_assoc]
    rfl
  · refine ⟨"The requested toolkit (".data ++ t.data ++
      (") is not support by the OFFTK. Please chose from rdkit, ").data,
      (".").data, ?_⟩
    unfold invalidToolkitMsg toolkitKeys
    simp only [String.data_append, List.append_assoc]
    rfl

/-- C8 witness: the recognized name `openeye` is accepted unchanged; the
unknown name `ambertools` is rejected at validation time with the
descriptive message, and no component is constructed from it. -/
theorem c8_toolkit_validation_witness :
    check_toolkit toolkitKeys "openeye" = Except.ok "openeye" ∧
    check_toolkit toolkitKeys "ambertools" =
      Except.error (invalidToolkitMsg toolkitKeys "ambertools") ∧
    EnumerateTautomers.mkValidated "ambertools" 20 =
      Except.error (invalidToolkitMsg toolkitKeys "ambertools") :=
  ⟨((c8_toolkit_validation "openeye" 20).1 (by decide)).1,
   ((c8_toolkit_validation "ambertools" 20).2.1 (by decide)).1,
   ((c8_toolkit_validation "ambertools" 20).2.1 (by decide)).2⟩

/-- C9 counterexample: the standard two-provider validator has a fallback
(its registry holds two providers), yet when both providers are absent
`is_available` raises the combined install-instructions error instead of
returning the boolean `false`. -/
theorem c9_counterexample :
    (["rdkit", "openeye"] : List String).length ≠ 1 ∧
    is_available ["rdkit", "openeye"] (fun _ => false) =
      Except.error bothMissingMsg :=
  ⟨by decide, rfl⟩

/-- C9 amended: `is_available` returns `True` as soon as one registered
provider is available; when a single hard-required provider is absent it
raises that provider's install-instructions message; and when no registered
provider is available it raises the combined install-instructions error —
it never returns `False`. -/
theorem c9_availability_probe (avail : String → Bool) :
    (avail "rdkit" = true →
      is_available ["rdkit", "openeye"] avail = Except.ok true) ∧
    (avail "rdkit" = false → avail "openeye" = true →
      is_available ["rdkit", "openeye"] avail = Except.ok true) ∧
    (avail "rdkit" = false → avail "openeye" = false →
      is_available ["rdkit", "openeye"] avail =
        Except.error bothMissingMsg) ∧
    (avail "openeye" = true →
      is_available ["openeye"] avail = Except.ok true) ∧
    (avail "openeye" = false →
      is_available ["openeye"] avail = Except.error oeRaiseMsg) := by
  refine ⟨?_, ?_, ?_, ?_, ?_⟩
  · intro h1
    simp [is_available, availLoop, which_import, h1]
  · intro h1 h2
    simp [is_available, availLoop, which_import, h1, h2]
  · intro h1 h2
    simp [is_available, availLoop, which_import, h1, h2]
  · intro h1
    simp [is_available, availLoop, which_import, h1]
  · intro h1
    simp [is_available, availLoop, which_import, h1]

/-- C9 amended witness: with no provider importable, the two-provider
validator raises the combined error and the single-provider validator
raises the openeye install message. -/
theorem c9_availability_probe_witness :
    is_available ["rdkit", "openeye"] (fun _ => false) =
      Except.error bothMissingMsg ∧
    is_available ["openeye"] (fun _ => false) = Except.error oeRaiseMsg :=
  ⟨(c9_availability_probe (fun _ => false)).2.2.1 rfl rfl,
   (c9_availability_probe (fun _ => false)).2.2.2.2 rfl⟩

end QCSubmit
